import Mathlib

/-!
Verification development for the wbweb library.

This file gives a shallow embedding, in Lean 4, of the parts of the
wbweb Python library that the specification talks about:

* `wbweb/core/templates/hiccup.py` — the hiccup-style HTML renderer
  (`HiccupRenderer.render`, `_render_attributes`, `_escape_html`, `raw`);
* `wbweb/core/config/settings.py` — the lazily reloading `Settings` object;
* `wbweb/core/utils/proxy.py` — `ConfigurableBackendProxy`;
* `wbweb/core/database/managers.py` — `Manager.get` and the
  `AsyncQuerySet` query builder.

Python values that can occur in a hiccup tree are modelled by the
inductive type `PyVal`; Python's built-in `str`/`repr` conversions are
modelled for that value domain.  Fallible or unmodelled behaviour is
represented with `Option`: a `none` result means the Python behaviour at
that input is not modelled here (for example `str` of a `_RawHTML`
object, whose text contains a memory address), never a definite claim
about the output.
-/

namespace Wbweb

namespace Hiccup

/-- Characters that are awkward to write literally under the project
style: the single quote (39), double quote (34) and backslash (92). -/
def squote : Char := Char.ofNat 39

/-- Double-quote character. -/
def dquote : Char := Char.ofNat 34

/-- Backslash character. -/
def bslash : Char := Char.ofNat 92

/-- A Python value as it can occur inside a hiccup tree: a `str`, a
`_RawHTML` wrapper (produced by `raw()` in `hiccup.py`), a `list`, a
`dict` (attribute maps; keys and values are arbitrary values, pairs in
insertion order), a `bool`, an `int`, or `None`. -/
inductive PyVal where
  | str (s : String)
  | raw (content : String)
  | list (elems : List PyVal)
  | dict (pairs : List (PyVal × PyVal))
  | bool (b : Bool)
  | int (n : Int)
  | noneV
deriving Repr

/-- Lower-case hexadecimal digit, as CPython prints in
string-escape sequences. -/
def hexDigit (n : Nat) : Char :=
  if n < 10 then Char.ofNat (48 + n) else Char.ofNat (87 + n)

/-- Models CPython repr of one character of a `str`, given the chosen
quote character `q`: backslash and the quote are backslash-escaped,
newline, carriage return and tab print as two-character escapes, other
control characters (and DEL) print as a hexadecimal escape, and every
other character prints as itself.  (CPython additionally hex-escapes
non-printable characters above U+007F; such characters are outside the
domain this model is used on.) -/
def reprCharPy (q : Char) (c : Char) : List Char :=
  if c = bslash then [bslash, bslash]
  else if c = q then [bslash, q]
  else if c = Char.ofNat 10 then [bslash, Char.ofNat 110]
  else if c = Char.ofNat 13 then [bslash, Char.ofNat 114]
  else if c = Char.ofNat 9 then [bslash, Char.ofNat 116]
  else if c.toNat < 32 ∨ c.toNat = 127 then
    [bslash, Char.ofNat 120, hexDigit (c.toNat / 16), hexDigit (c.toNat % 16)]
  else [c]

/-- Models CPython `repr` of a `str`: the quote is a single quote,
unless the string contains a single quote and no double quote, in which
case it is a double quote; the body is escaped character by character. -/
def pyReprString (s : String) : String :=
  let q := if s.data.contains squote ∧ ¬ s.data.contains dquote
           then dquote else squote
  ⟨[q] ++ s.data.flatMap (reprCharPy q) ++ [q]⟩

mutual

/-- Models CPython `repr` on the `PyVal` domain.  `none` marks values
whose repr is not modelled (`_RawHTML` objects: their default object
repr contains a memory address). -/
def pyRepr : PyVal → Option String
  | .str s => some (pyReprString s)
  | .raw _ => none
  | .list elems => do
      let rs ← pyReprList elems
      some ("[" ++ String.intercalate (", ") rs ++ "]")
  | .dict pairs => do
      let rs ← pyReprPairs pairs
      some ("\x7b" ++ String.intercalate (", ") rs ++ "\x7d")
  | .bool b => some (if b then "True" else "False")
  | .int n => some (toString n)
  | .noneV => some ("None")

/-- Reprs of the elements of a Python list, in order. -/
def pyReprList : List PyVal → Option (List String)
  | [] => some []
  | v :: vs => do
      let r ← pyRepr v
      let rs ← pyReprList vs
      some (r :: rs)

/-- Reprs of the `key: value` entries of a Python dict, in order. -/
def pyReprPairs : List (PyVal × PyVal) → Option (List String)
  | [] => some []
  | (k, v) :: ps => do
      let rk ← pyRepr k
      let rv ← pyRepr v
      let rs ← pyReprPairs ps
      some ((rk ++ ": " ++ rv) :: rs)

end

/-- Models CPython `str` on the `PyVal` domain: the identity on `str`
values, and `repr` on lists, dicts, bools, ints and `None` (none of
which define a separate `__str__`). -/
def pyStr : PyVal → Option String
  | .str s => some s
  | v => pyRepr v

/-- Models Python `text.replace(needle, repl)` for a one-character
needle: every occurrence of `needle` is replaced by `repl`. -/
def pyReplaceChar (needle : Char) (repl : List Char) : List Char → List Char
  | [] => []
  | c :: cs => (if c = needle then repl else [c]) ++ pyReplaceChar needle repl cs

/-- `HiccupRenderer._escape_html` on the character list of the input:
the five replacements of `hiccup.py` lines 89–94, applied in source
order (`&`, then `<`, `>`, `"`, and the single quote). -/
def escapeHtmlList (s : List Char) : List Char :=
  pyReplaceChar squote ("&#x27;".data)
    (pyReplaceChar dquote ("&quot;".data)
      (pyReplaceChar (Char.ofNat 62) ("&gt;".data)
        (pyReplaceChar (Char.ofNat 60) ("&lt;".data)
          (pyReplaceChar (Char.ofNat 38) ("&amp;".data) s))))

/-- `HiccupRenderer._escape_html` as a function on strings. -/
def escapeHtml (s : String) : String := ⟨escapeHtmlList s.data⟩

/-- The per-character escape map that the five sequential replacements
of `_escape_html` amount to (proved below): the five HTML-special
characters become entities, every other character stays itself. -/
def escapeChar (c : Char) : List Char :=
  if c = Char.ofNat 38 then ("&amp;".data)
  else if c = Char.ofNat 60 then ("&lt;".data)
  else if c = Char.ofNat 62 then ("&gt;".data)
  else if c = dquote then ("&quot;".data)
  else if c = squote then ("&#x27;".data)
  else [c]

/-- The unary (self-closing) tag list of `hiccup.py` line 57. -/
def unaryTags : List String :=
  ["img", "br", "hr", "embed", "link", "meta", "source", "track", "wbr"]

/-- The unary attribute list of `hiccup.py` line 72. -/
def unaryAttrs : List String :=
  ["checked", "disabled", "multiple", "readonly", "required"]

/-- Models `is_unary_tag(tag)`: Python `tag in ['img', ...]` compares
`tag` with `==` against each string, which holds exactly when `tag` is
one of those strings. -/
def isUnaryTag : PyVal → Bool
  | .str s => unaryTags.contains s
  | _ => false

/-- Models `is_unary_attr(k)` from `_render_attributes`. -/
def isUnaryAttr : PyVal → Bool
  | .str s => unaryAttrs.contains s
  | _ => false

/-- Models Python `v is True`: identity with the `True` singleton holds
exactly for the boolean value `True`. -/
def isTrueConst : PyVal → Bool
  | .bool true => true
  | _ => false

/-- Models `render_attr(k, v)` from `_render_attributes`: a unary
attribute whose value is the `True` object renders as `str(k)`; any
other pair renders as `k="escaped value"`, where both `k` and `v` pass
through `str` and the value is HTML-escaped. -/
def renderAttr (k v : PyVal) : Option String :=
  if isUnaryAttr k && isTrueConst v then pyStr k
  else do
    let ks ← pyStr k
    let vs ← pyStr v
    some (ks ++ "=" ++ String.singleton dquote ++ escapeHtml vs ++ String.singleton dquote)

/-- The list comprehension `attr_pairs` of `_render_attributes`. -/
def renderAttrList : List (PyVal × PyVal) → Option (List String)
  | [] => some []
  | (k, v) :: ps => do
      let r ← renderAttr k v
      let rs ← renderAttrList ps
      some (r :: rs)

/-- Models `HiccupRenderer._render_attributes`: the empty dict renders
as the empty string, and otherwise the rendered pairs are joined by
single spaces with one leading space. -/
def renderAttributes (attrs : List (PyVal × PyVal)) : Option String :=
  match attrs with
  | [] => some ""
  | ps => do
      let rs ← renderAttrList ps
      some (" " ++ String.intercalate (" ") rs)

mutual

/-- Models `HiccupRenderer.render` (`hiccup.py` lines 40–64).  A
`_RawHTML` value yields its content unescaped; a `str` is HTML-escaped;
a list of length at least two is an element whose attributes are its
second item when that item is a dict (children are the rest, otherwise
the second item is the first child); every other value — including a
list of fewer than two items — falls through to `str(hiccup_tree)`. -/
def render : PyVal → Option String
  | .raw content => some content
  | .str s => some (escapeHtml s)
  | .list (tag :: .dict ps :: rest) => do
      let attrsStr ← renderAttributes ps
      let childStrs ← renderList rest
      let childrenStr := String.intercalate "\n" childStrs
      let tagStr ← pyStr tag
      if isUnaryTag tag then
        some ("<" ++ tagStr ++ attrsStr ++ "/>" ++ "\n")
      else
        some ("<" ++ tagStr ++ attrsStr ++ ">" ++ childrenStr
              ++ "</" ++ tagStr ++ ">" ++ "\n")
  | .list (tag :: snd :: rest) => do
      let attrsStr ← renderAttributes []
      let childStrs ← renderList (snd :: rest)
      let childrenStr := String.intercalate "\n" childStrs
      let tagStr ← pyStr tag
      if isUnaryTag tag then
        some ("<" ++ tagStr ++ attrsStr ++ "/>" ++ "\n")
      else
        some ("<" ++ tagStr ++ attrsStr ++ ">" ++ childrenStr
              ++ "</" ++ tagStr ++ ">" ++ "\n")
  | v => pyStr v
termination_by v => sizeOf v

/-- Renders a list of children in order, as the generator expression on
`hiccup.py` line 54 does. -/
def renderList : List PyVal → Option (List String)
  | [] => some []
  | c :: cs => do
      let s ← render c
      let ss ← renderList cs
      some (s :: ss)
termination_by l => sizeOf l

end

end Hiccup

/-! Exceptions.  The error values that the embedded operations can
signal.  `doesNotExist` models the `DoesNotExist` class declared in
`wbweb/core/database/managers.py` lines 15–16 (a subclass of the
library's own `ORMException`); the others model interpreter or
SQLAlchemy exception types. -/

/-- An exception as observed through the embedded operations. -/
inductive PyErr where
  | importError (path : String)
  | attributeError (msg : String)
  | doesNotExist
  | multipleResultsFound
deriving DecidableEq, Repr

/-- Whether the exception type is declared by the wbweb library itself:
`DoesNotExist` (with its base `ORMException`) is declared in
`managers.py`; `ImportError` and `AttributeError` are interpreter
built-ins and `MultipleResultsFound` belongs to SQLAlchemy. -/
def PyErr.isLibraryDefined : PyErr → Bool
  | .doesNotExist => true
  | _ => false

namespace Config

/-- A settings value as found in a settings module (the values in
`defaults.py` are strings and booleans). -/
inductive SVal where
  | vStr (s : String)
  | vBool (b : Bool)
deriving DecidableEq, Repr

/-- A Python module as the settings machinery sees it: a dotted name
and an attribute table.  Module objects are identified by their dotted
name: `importlib.import_module` returns the unique object cached in
`sys.modules` under that name, so Python `is` on modules coincides with
name equality. -/
structure PyModule where
  modName : String
  attrs : List (String × SVal)
deriving DecidableEq, Repr

/-- Models `getattr(module, name)` restricted to settings attributes:
`some` the stored value, `none` when the module raises
`AttributeError`. -/
def moduleGetattr (m : PyModule) (name : String) : Option SVal :=
  (m.attrs.find? (fun p => p.1 == name)).map (fun p => p.2)

/-- The ambient interpreter state that `Settings` reads: the value of
the `WBWEB_SETTINGS_MODULE` environment variable, the importable
modules by dotted path, and the `wbweb.core.config.defaults` module
(whose import on line 39 of `settings.py` always succeeds). -/
structure SettingsEnv where
  envVar : Option String
  modules : List (String × PyModule)
  defaultsMod : PyModule

/-- Models `importlib.import_module`: `some` the module registered
under the dotted path, `none` when the import raises `ImportError`. -/
def importModule (env : SettingsEnv) (path : String) : Option PyModule :=
  (env.modules.find? (fun p => p.1 == path)).map (fun p => p.2)

/-- The mutable fields of the `Settings` instance
(`settings.py` lines 21–24). -/
structure SettingsState where
  settingsModule : Option PyModule
  defaultsModule : Option PyModule
  cachedPath : Option String
deriving DecidableEq, Repr

/-- The state `Settings.__init__` creates: nothing loaded yet. -/
def initSettingsState : SettingsState := ⟨none, none, none⟩

/-- Models `Settings._should_reload_settings` (lines 26–31): reload
when no module has been loaded or when the cached environment value
differs from the current one. -/
def shouldReloadSettings (env : SettingsEnv) (st : SettingsState) : Bool :=
  st.settingsModule.isNone || (st.cachedPath != env.envVar)

/-- Models `Settings._load_settings` (lines 33–58).  The returned pair
is the state after the call together with the exception it raises, if
any: on a reload the defaults module is always stored; a set
environment variable selects the module it names (an import failure
raises `ImportError` naming the path, with the state already holding
the new defaults module but the old settings module and cached path);
an unset variable selects the defaults module itself; on success the
cached path is updated to the current environment value. -/
def loadSettings (env : SettingsEnv) (st : SettingsState) :
    SettingsState × Option PyErr :=
  if !(shouldReloadSettings env st) then (st, none)
  else
    let st1 := { st with defaultsModule := some env.defaultsMod }
    match env.envVar with
    | some path =>
        match importModule env path with
        | some m =>
            ({ st1 with settingsModule := some m, cachedPath := some path }, none)
        | none => (st1, some (.importError path))
    | none =>
        ({ st1 with settingsModule := some env.defaultsMod, cachedPath := none }, none)

/-- Python `is` between the two module slots: identity of module
objects, which for `sys.modules`-cached modules is name equality. -/
def moduleIs : Option PyModule → Option PyModule → Bool
  | some a, some b => a.modName == b.modName
  | none, none => true
  | _, _ => false

/-- Models `Settings.__getattr__` (lines 60–75): load (propagating
any import error), then try the user settings module when it is a distinct
object from the defaults module, then fall back to the defaults module,
and raise `AttributeError` when neither has the attribute.  A `none`
module slot behaves as a module with no attributes (`getattr` on `None`
raises `AttributeError`, which both `try` blocks treat as a miss). -/
def getattrSettings (env : SettingsEnv) (st : SettingsState) (name : String) :
    SettingsState × Except PyErr SVal :=
  match loadSettings env st with
  | (st1, some e) => (st1, .error e)
  | (st1, none) =>
      match (if moduleIs st1.settingsModule st1.defaultsModule then none
             else st1.settingsModule.bind (fun m => moduleGetattr m name)) with
      | some v => (st1, .ok v)
      | none =>
          match st1.defaultsModule.bind (fun m => moduleGetattr m name) with
          | some v => (st1, .ok v)
          | none => (st1, .error (.attributeError name))

end Config

namespace Proxy

/-- A live backend instance: the class it was instantiated from and a
serial number distinguishing it from every other instance created in
the run. -/
structure Backend where
  classPath : String
  instanceId : Nat
deriving DecidableEq, Repr

/-- The ambient state `ConfigurableBackendProxy` reads: the resolved
settings attributes (what `getattr(settings, key)` would return, with
`none` for an `AttributeError`), and the class paths on which
`import_from_string` succeeds.  The settings object's own reload
behaviour is modelled separately in `Config`. -/
structure ProxyEnv where
  settingsAttrs : List (String × String)
  importable : List String

/-- The fields of a `ConfigurableBackendProxy` instance
(`proxy.py` lines 37–41). -/
structure ProxyState where
  defaultValue : Option String
  configKey : String
  backend : Option Backend
  cachedBackendPath : Option String
deriving DecidableEq, Repr

/-- The state `ConfigurableBackendProxy.__init__` creates. -/
def initProxyState (key : String) (dflt : Option String) : ProxyState :=
  ⟨dflt, key, none, none⟩

/-- Models `getattr(settings, self._config_key, self.default_value)`:
the settings value when the lookup succeeds, the proxy's default when
it raises `AttributeError`. -/
def currentBackendPath (env : ProxyEnv) (ps : ProxyState) : Option String :=
  match (env.settingsAttrs.find? (fun p => p.1 == ps.configKey)).map (fun p => p.2) with
  | some v => some v
  | none => ps.defaultValue

/-- Models `ConfigurableBackendProxy._should_recreate_backend`
(lines 43–49): recreate when no backend exists or the configured class
path differs from the one cached at the last creation. -/
def shouldRecreateBackend (env : ProxyEnv) (ps : ProxyState) : Bool :=
  ps.backend.isNone || (ps.cachedBackendPath != currentBackendPath env ps)

/-- Models `import_from_string` (lines 11–16): resolution succeeds
exactly on the importable class paths, and an unresolvable path raises
(`ImportError` from `import_module`, or `AttributeError` from the class
lookup — collapsed here into `importError`). -/
def importFromString (env : ProxyEnv) (path : String) : Option String :=
  if env.importable.contains path then some path else none

/-- Models `ConfigurableBackendProxy._get_or_create_backend`
(lines 51–59), threading a counter that numbers freshly instantiated
backends.  When no recreation is needed the cached instance is returned
and nothing changes; otherwise the configured class is imported and
instantiated, and the instance and its class path are cached.  A
missing path (no setting and no default) models
`import_from_string(None)`, which raises `AttributeError` on
`None.rsplit`. -/
def getOrCreateBackend (env : ProxyEnv) (ps : ProxyState) (nextId : Nat) :
    Except PyErr (Backend × ProxyState × Nat) :=
  if shouldRecreateBackend env ps then
    match currentBackendPath env ps with
    | none => .error (.attributeError ("rsplit"))
    | some path =>
        match importFromString env path with
        | none => .error (.importError path)
        | some cls =>
            let b : Backend := ⟨cls, nextId⟩
            .ok (b, { ps with backend := some b, cachedBackendPath := some path }, nextId + 1)
  else
    match ps.backend with
    | some b => .ok (b, ps, nextId)
    | none => .error (.attributeError (ps.configKey))

end Proxy

namespace Managers

/-- Models SQLAlchemy `Result.scalar_one_or_none` on the rows the query
produced: `None` for no rows, the row for exactly one, and
`MultipleResultsFound` (a SQLAlchemy exception) for more. -/
def scalarOneOrNone {α : Type} : List α → Except PyErr (Option α)
  | [] => .ok none
  | [x] => .ok (some x)
  | _ => .error .multipleResultsFound

/-- Models `Manager.get` (`managers.py` lines 235–252) applied to the
rows matching the query: the single matching row, or the
library-defined `DoesNotExist` when there is none. -/
def managerGet {α : Type} (rows : List α) : Except PyErr α :=
  match scalarOneOrNone rows with
  | .error e => .error e
  | .ok none => .error .doesNotExist
  | .ok (some x) => .ok x

end Managers

namespace Query

/-- A WHERE condition: an opaque native SQLAlchemy expression, or the
`getattr(model_class, key) == value` comparison built from a keyword
argument. -/
inductive Cond where
  | expr (label : String)
  | fieldEq (model : String) (field : String) (value : String)
deriving DecidableEq, Repr

/-- A SQLAlchemy `Select` statement as the query builder constructs
it: the initial `select(model_class)` with clauses layered on top. -/
inductive SqlStmt where
  | selectModel (model : Option String)
  | whereC (base : SqlStmt) (c : Cond)
  | withOptions (base : SqlStmt) (opts : List String)
  | withOrderBy (base : SqlStmt) (keys : List String)
deriving DecidableEq, Repr

/-- Layers one WHERE clause per condition onto a statement, leftmost
first: the statement-level effect of the `filter` loops. -/
def stackWheres (s : SqlStmt) (cs : List Cond) : SqlStmt :=
  cs.foldl SqlStmt.whereC s

/-- The mutable fields of an `AsyncQuerySet` object that determine what
it executes (`managers.py` lines 27–31; the session factory and result
cache play no role in the claims modelled here). -/
structure QuerySetObj where
  modelClass : Option String
  stmt : SqlStmt
deriving DecidableEq, Repr

/-- The object store: query-set objects addressed by allocation index,
so that mutation of one object is observable on others aliasing it. -/
abbrev QHeap := List QuerySetObj

/-- Dereference a query-set object. -/
def qheapGet (h : QHeap) (r : Nat) : Option QuerySetObj := h.get? r

/-- Assignment `obj._stmt = s` on the object at `r`. -/
def setStmt (h : QHeap) (r : Nat) (s : SqlStmt) : QHeap :=
  match h.get? r with
  | some q => h.set r { q with stmt := s }
  | none => h

/-- Models `AsyncQuerySet.__init__`: allocates a fresh object whose
statement is `select(model_class)`, returning the new heap and the
reference. -/
def newQuerySet (h : QHeap) (model : Option String) : QHeap × Nat :=
  (h ++ [⟨model, .selectModel model⟩], h.length)

/-- Models `AsyncQuerySet._clone` (lines 33–37): construct a fresh
query set over the same model class, then assign the receiver's
statement to it. -/
def cloneQS (h : QHeap) (r : Nat) : Option (QHeap × Nat) := do
  let self ← qheapGet h r
  let alloc := newQuerySet h self.modelClass
  some (setStmt alloc.1 alloc.2 self.stmt, alloc.2)

/-- One `new_qs._stmt = new_qs._stmt.where(c)` loop iteration for each
condition, in order. -/
def applyWheres (h : QHeap) (r : Nat) (cs : List Cond) : QHeap :=
  cs.foldl
    (fun hh c =>
      match qheapGet hh r with
      | some q => setStmt hh r (.whereC q.stmt c)
      | none => hh)
    h

/-- Models `AsyncQuerySet.filter` (lines 39–70): clone, add one WHERE
clause per positional expression, then one per keyword pair using
`getattr(self.model_class, key)` — which raises (`none`) when keyword
arguments are supplied and the model class is `None`. -/
def filterQS (h : QHeap) (r : Nat) (exprs : List String)
    (kwargs : List (String × String)) : Option (QHeap × Nat) := do
  let self ← qheapGet h r
  let cl ← cloneQS h r
  let h3 := applyWheres cl.1 cl.2 (exprs.map Cond.expr)
  match kwargs with
  | [] => some (h3, cl.2)
  | _ :: _ =>
      match self.modelClass with
      | some m =>
          some (applyWheres h3 cl.2 (kwargs.map (fun kv => Cond.fieldEq m kv.1 kv.2)), cl.2)
      | none => none

/-- Models `AsyncQuerySet.options` (lines 72–76): clone, then layer the
loading options onto the clone's statement. -/
def optionsQS (h : QHeap) (r : Nat) (opts : List String) : Option (QHeap × Nat) := do
  let cl ← cloneQS h r
  let q ← qheapGet cl.1 cl.2
  some (setStmt cl.1 cl.2 (.withOptions q.stmt opts), cl.2)

/-- Models `AsyncQuerySet.order_by` (lines 78–82): clone, then layer
the ORDER BY keys onto the clone's statement. -/
def orderByQS (h : QHeap) (r : Nat) (keys : List String) : Option (QHeap × Nat) := do
  let cl ← cloneQS h r
  let q ← qheapGet cl.1 cl.2
  some (setStmt cl.1 cl.2 (.withOrderBy q.stmt keys), cl.2)

end Query

namespace HiccupHeap

/-- Reference to a heap cell. -/
abbrev HRef := Nat

/-- A Python value of the hiccup domain with its aggregate members held
by reference, so that object identity and in-place mutation are
observable. -/
inductive HVal where
  | str (s : String)
  | raw (content : String)
  | list (elems : List HRef)
  | dict (pairs : List (HRef × HRef))
  | bool (b : Bool)
  | int (n : Int)
  | noneV
deriving DecidableEq, Repr

/-- The object store for hiccup trees. -/
abbrev Heap := List HVal

/-- Dereference a cell. -/
def heapGet (h : Heap) (r : HRef) : Option HVal := h.get? r

/-- Applies an optional-result function to a list of references,
collecting the results in order. -/
def strList (f : HRef → Option String) : List HRef → Option (List String)
  | [] => some []
  | r :: rs => do
      let s ← f r
      let ss ← strList f rs
      some (s :: ss)

/-- Applies an optional-result function to both components of each
pair, building a repr entry per pair. -/
def strPairs (f : HRef → Option String) : List (HRef × HRef) → Option (List String)
  | [] => some []
  | p :: ps => do
      let sk ← f p.1
      let sv ← f p.2
      let ss ← strPairs f ps
      some ((sk ++ ": " ++ sv) :: ss)

mutual

/-- Models CPython `repr` on heap values, with fuel bounding the
dereferencing depth (Python recursion on a cyclic structure raises; a
fuel exhaustion is `none`).  As in `Hiccup.pyRepr`, the repr of a
`_RawHTML` object is not modelled. -/
def pyReprH : Nat → Heap → HRef → Option String
  | 0, _, _ => none
  | fuel + 1, h, r => do
      let v ← heapGet h r
      match v with
      | .str s => some (Hiccup.pyReprString s)
      | .raw _ => none
      | .list rs => do
          let ss ← strList (pyReprH fuel h) rs
          some ("[" ++ String.intercalate (", ") ss ++ "]")
      | .dict ps => do
          let ss ← strPairs (pyReprH fuel h) ps
          some ("\x7b" ++ String.intercalate (", ") ss ++ "\x7d")
      | .bool b => some (if b then "True" else "False")
      | .int n => some (toString n)
      | .noneV => some ("None")

end

/-- Models CPython `str` on heap values: the contents for a `str`
object, `repr` otherwise. -/
def pyStrH (fuel : Nat) (h : Heap) (r : HRef) : Option String :=
  match heapGet h r with
  | some (.str s) => some s
  | _ => pyReprH fuel h r

/-- Python `k in ['checked', ...]` on a heap value: true exactly for a
`str` object with one of the listed contents. -/
def isUnaryAttrH (h : Heap) (r : HRef) : Option Bool := do
  let v ← heapGet h r
  some (match v with
        | .str s => Hiccup.unaryAttrs.contains s
        | _ => false)

/-- Python `v is True` on a heap value. -/
def isTrueH (h : Heap) (r : HRef) : Option Bool := do
  let v ← heapGet h r
  some (match v with
        | .bool true => true
        | _ => false)

/-- Python `tag in ['img', ...]` on a heap value. -/
def isUnaryTagH (h : Heap) (r : HRef) : Option Bool := do
  let v ← heapGet h r
  some (match v with
        | .str s => Hiccup.unaryTags.contains s
        | _ => false)

/-- `render_attr(k, v)` on heap references, with `strf` the ambient
string conversion (`str` reads objects but never writes them). -/
def renderAttrH (h : Heap) (strf : HRef → Option String) (k v : HRef) :
    Option String := do
  let ua ← isUnaryAttrH h k
  let tv ← isTrueH h v
  if ua && tv then strf k
  else do
    let ks ← strf k
    let vs ← strf v
    some (ks ++ "=" ++ String.singleton Hiccup.dquote
          ++ Hiccup.escapeHtml vs ++ String.singleton Hiccup.dquote)

/-- The `attr_pairs` comprehension of `_render_attributes` on heap
references. -/
def renderAttrListH (h : Heap) (strf : HRef → Option String) :
    List (HRef × HRef) → Option (List String)
  | [] => some []
  | p :: ps => do
      let s ← renderAttrH h strf p.1 p.2
      let ss ← renderAttrListH h strf ps
      some (s :: ss)

/-- `_render_attributes` on heap references. -/
def renderAttributesH (h : Heap) (strf : HRef → Option String)
    (pairs : List (HRef × HRef)) : Option String :=
  match pairs with
  | [] => some ""
  | ps => do
      let ss ← renderAttrListH h strf ps
      some (" " ++ String.intercalate (" ") ss)

/-- Renders the children of an element left to right, threading the
heap through each recursive call so that any mutation a call performed
would be visible to the following ones and in the final heap. -/
def renderSeqH (f : Heap → HRef → Option (String × Heap)) :
    Heap → List HRef → Option (List String × Heap)
  | h, [] => some ([], h)
  | h, r :: rs => do
      let sh ← f h r
      let rest ← renderSeqH f sh.2 rs
      some (sh.1 :: rest.1, rest.2)

/-- The element branch of `HiccupRenderer.render` (`hiccup.py` lines
48–62) over the object store, with the tag reference, attribute pairs
and child references already extracted, and the recursive renderer `f`
and the string conversion `strf` passed in: render the attributes (from
the pre-children heap, as the source computes `attrs_str` on line 53
first), render the children in order threading the heap, read the tag's
string and unary status, and format. -/
def renderElemH (f : Heap → HRef → Option (String × Heap))
    (strf : Heap → HRef → Option String) (h : Heap) (tagR : HRef)
    (attrPairs : List (HRef × HRef)) (children : List HRef) :
    Option (String × Heap) := do
  let attrsStr ← renderAttributesH h (strf h) attrPairs
  let cres ← renderSeqH f h children
  let childrenStr := String.intercalate "\n" cres.1
  let h1 := cres.2
  let tagStr ← strf h1 tagR
  let unary ← isUnaryTagH h1 tagR
  if unary then
    some ("<" ++ tagStr ++ attrsStr ++ "/>" ++ "\n", h1)
  else
    some ("<" ++ tagStr ++ attrsStr ++ ">" ++ childrenStr
          ++ "</" ++ tagStr ++ ">" ++ "\n", h1)

/-- Models `HiccupRenderer.render` over the object store, threading the
heap: the result is the rendered string together with the heap after
the call.  The structure follows `render` line by line: dispatch on the
object's type; a list of length at least two is an element whose
attribute pairs and children depend on whether the second item is a
dict (lines 50–51), rendered by `renderElemH`; every other value falls
through to `str(hiccup_tree)`, which reads but never writes.  Fuel
bounds recursion depth (Python overflows on cyclic input). -/
def renderH : Nat → Heap → HRef → Option (String × Heap)
  | 0, _, _ => none
  | fuel + 1, h, r => do
      let v ← heapGet h r
      match v with
      | .raw content => some (content, h)
      | .str s => some (Hiccup.escapeHtml s, h)
      | .list (tagR :: sndR :: rest) => do
          let sndV ← heapGet h sndR
          match sndV with
          | .dict ps => renderElemH (renderH fuel) (pyStrH fuel) h tagR ps rest
          | _ => renderElemH (renderH fuel) (pyStrH fuel) h tagR [] (sndR :: rest)
      | _ => do
          let s ← pyStrH fuel h r
          some (s, h)

end HiccupHeap

/-! Theorems.  First general lemmas about the embedded definitions,
then one theorem per claim (with witnesses and counterexamples). -/

namespace Hiccup

theorem pyReplaceChar_append (n : Char) (repl a b : List Char) :
    pyReplaceChar n repl (a ++ b) =
      pyReplaceChar n repl a ++ pyReplaceChar n repl b := by
  induction a with
  | nil => simp [pyReplaceChar]
  | cons c cs ih => simp [pyReplaceChar, ih]

theorem escapeHtmlList_append (a b : List Char) :
    escapeHtmlList (a ++ b) = escapeHtmlList a ++ escapeHtmlList b := by
  simp [escapeHtmlList, pyReplaceChar_append]

theorem escapeHtmlList_single (c : Char) :
    escapeHtmlList [c] = escapeChar c := by
  by_cases h1 : c = Char.ofNat 38
  · subst h1; decide
  by_cases h2 : c = Char.ofNat 60
  · subst h2; decide
  by_cases h3 : c = Char.ofNat 62
  · subst h3; decide
  by_cases h4 : c = dquote
  · subst h4; decide
  by_cases h5 : c = squote
  · subst h5; decide
  simp [escapeHtmlList, pyReplaceChar, escapeChar, h1, h2, h3, h4, h5]

theorem escapeHtmlList_eq_flatMap (s : List Char) :
    escapeHtmlList s = s.flatMap escapeChar := by
  induction s with
  | nil => decide
  | cons c cs ih =>
      have hc : (c :: cs) = [c] ++ cs := rfl
      rw [hc, escapeHtmlList_append, escapeHtmlList_single, ih]
      simp

theorem escapeChar_no_special (c a : Char) (hmem : a ∈ escapeChar c) :
    a ≠ Char.ofNat 60 ∧ a ≠ Char.ofNat 62 ∧ a ≠ dquote ∧ a ≠ squote := by
  unfold escapeChar at hmem
  split_ifs at hmem with h1 h2 h3 h4 h5
  · refine ⟨?_, ?_, ?_, ?_⟩ <;> (intro hbad; subst hbad; revert hmem; decide)
  · refine ⟨?_, ?_, ?_, ?_⟩ <;> (intro hbad; subst hbad; revert hmem; decide)
  · refine ⟨?_, ?_, ?_, ?_⟩ <;> (intro hbad; subst hbad; revert hmem; decide)
  · refine ⟨?_, ?_, ?_, ?_⟩ <;> (intro hbad; subst hbad; revert hmem; decide)
  · refine ⟨?_, ?_, ?_, ?_⟩ <;> (intro hbad; subst hbad; revert hmem; decide)
  · have ha : a = c := by simpa using hmem
    subst ha
    exact ⟨h2, h3, h4, h5⟩

/-- Claim C2: `HiccupRenderer.render` escapes text leaves with
`_escape_html`, which maps the five characters `&` `<` `>` `"` and the
single quote to `&amp;` `&lt;` `&gt;` `&quot;` `&#x27;` and leaves
every other character unchanged, so no `<`, `>`, `"` or single quote
from a text leaf or from an attribute value survives into the output;
attribute values (in the non-boolean-shorthand case) are rendered as
`key="escaped value"` with the value passed through `_escape_html`. -/
theorem claim_c2_escaping :
    (∀ s : String, render (.str s) = some (escapeHtml s))
  ∧ (∀ s : String, (escapeHtml s).data = s.data.flatMap escapeChar)
  ∧ (escapeChar (Char.ofNat 38) = ("&amp;".data)
      ∧ escapeChar (Char.ofNat 60) = ("&lt;".data)
      ∧ escapeChar (Char.ofNat 62) = ("&gt;".data)
      ∧ escapeChar dquote = ("&quot;".data)
      ∧ escapeChar squote = ("&#x27;".data))
  ∧ (∀ (s : String) (c : Char), c ∈ (escapeHtml s).data →
      c ≠ Char.ofNat 60 ∧ c ≠ Char.ofNat 62 ∧ c ≠ dquote ∧ c ≠ squote)
  ∧ (∀ (k v : PyVal) (ks vs : String),
      (isUnaryAttr k && isTrueConst v) = false →
      pyStr k = some ks → pyStr v = some vs →
      renderAttr k v = some (ks ++ "=" ++ String.singleton dquote
        ++ escapeHtml vs ++ String.singleton dquote)) := by
  refine ⟨?_, ?_, ?_, ?_, ?_⟩
  · intro s; simp [render]
  · intro s; simpa [escapeHtml] using escapeHtmlList_eq_flatMap s.data
  · decide
  · intro s c hc
    have hc2 : c ∈ s.data.flatMap escapeChar := by
      rwa [escapeHtml, escapeHtmlList_eq_flatMap] at hc
    obtain ⟨a, _, hmem⟩ := List.mem_flatMap.mp hc2
    exact escapeChar_no_special a c hmem
  · intro k v ks vs hcase hk hv
    simp [renderAttr, hcase, hk, hv]

/-- Witness for C2 at concrete inputs: a text leaf with all five
special characters, and an attribute pair with a special character in
the value. -/
theorem claim_c2_escaping_witness :
    render (.str ("a<b>&c")) = some (escapeHtml ("a<b>&c"))
  ∧ renderAttr (.str ("title")) (.str ("x&y")) =
      some ("title" ++ "=" ++ String.singleton dquote
        ++ escapeHtml ("x&y") ++ String.singleton dquote) := by
  constructor
  · exact claim_c2_escaping.1 ("a<b>&c")
  · exact claim_c2_escaping.2.2.2.2 (.str ("title")) (.str ("x&y"))
      ("title") ("x&y") (by decide) rfl rfl

theorem renderList_append (a b : List PyVal) (xs ys : List String)
    (ha : renderList a = some xs) (hb : renderList b = some ys) :
    renderList (a ++ b) = some (xs ++ ys) := by
  induction a generalizing xs with
  | nil =>
      simp only [renderList] at ha
      cases ha
      simpa using hb
  | cons c cs ih =>
      simp only [renderList] at ha
      cases hc : render c with
      | none => rw [hc] at ha; simp at ha
      | some s =>
          rw [hc] at ha
          cases hcs : renderList cs with
          | none => rw [hcs] at ha; simp at ha
          | some ss =>
              rw [hcs] at ha
              simp at ha
              rw [List.cons_append]
              simp only [renderList]
              rw [hc, ih ss hcs]
              rw [← ha]
              simp

/-- Claim C1 (amended): for a hiccup list with at least two elements —
`[tag, attrs-dict, ...children]`, or `[tag, first-child, ...children]`
when the second element is not a dict — `render` produces the opening
tag with rendered attributes, the recursively rendered children joined
by newlines, and (for a non-self-closing tag) the closing tag followed
by a newline; a plain string renders as its escaped text.  (A list
holding only a tag name is NOT rendered as an element; see the
counterexample.) -/
theorem claim_c1_element_rendering :
    (∀ (tagS : String) (attrs : List (PyVal × PyVal)) (children : List PyVal)
        (astr : String) (cstrs : List String),
        tagS ∉ unaryTags →
        renderAttributes attrs = some astr →
        renderList children = some cstrs →
        render (.list (.str tagS :: .dict attrs :: children)) =
          some ("<" ++ tagS ++ astr ++ ">" ++ String.intercalate "\n" cstrs
            ++ "</" ++ tagS ++ ">" ++ "\n"))
  ∧ (∀ (tagS : String) (x : PyVal) (rest : List PyVal) (cstrs : List String),
        tagS ∉ unaryTags →
        (∀ ps, x ≠ .dict ps) →
        renderList (x :: rest) = some cstrs →
        render (.list (.str tagS :: x :: rest)) =
          some ("<" ++ tagS ++ ">" ++ String.intercalate "\n" cstrs
            ++ "</" ++ tagS ++ ">" ++ "\n"))
  ∧ (∀ s : String, render (.str s) = some (escapeHtml s)) := by
  refine ⟨?_, ?_, ?_⟩
  · intro tagS attrs children astr cstrs hmem hattrs hchild
    simp [render, hattrs, hchild, pyStr, isUnaryTag, hmem]
  · intro tagS x rest cstrs hmem hx hchild
    cases x with
    | dict ps => exact absurd rfl (hx ps)
    | str s =>
        simp [render, renderAttributes, hchild, pyStr, isUnaryTag, hmem]
    | raw c =>
        simp [render, renderAttributes, hchild, pyStr, isUnaryTag, hmem]
    | list es =>
        simp [render, renderAttributes, hchild, pyStr, isUnaryTag, hmem]
    | bool b =>
        simp [render, renderAttributes, hchild, pyStr, isUnaryTag, hmem]
    | int n =>
        simp [render, renderAttributes, hchild, pyStr, isUnaryTag, hmem]
    | noneV =>
        simp [render, renderAttributes, hchild, pyStr, isUnaryTag, hmem]
  · intro s; simp [render]

/-- Counterexample to C1 as stated: a list holding only a tag name is
below the length-2 threshold of `render`, falls through to Python
`str()`, and yields the list's repr, not an HTML element. -/
theorem claim_c1_counterexample :
    render (.list [.str ("div")]) =
      some (⟨[Char.ofNat 91, squote] ++ ("div").data ++ [squote, Char.ofNat 93]⟩)
  ∧ render (.list [.str ("div")]) ≠ some ("<div></div>" ++ "\n") := by
  constructor
  · simp [render, pyStr, pyRepr, pyReprList, pyReprString, reprCharPy,
      squote, dquote, bslash, hexDigit]
    decide
  · intro hbad
    have h : render (.list [.str ("div")]) =
        some (⟨[Char.ofNat 91, squote] ++ ("div").data ++ [squote, Char.ofNat 93]⟩) := by
      simp [render, pyStr, pyRepr, pyReprList, pyReprString, reprCharPy,
        squote, dquote, bslash, hexDigit]
      decide
    rw [h] at hbad
    revert hbad
    decide

/-- Witness for the amended C1 at concrete inputs: a two-element list
with an attribute dict, a tree whose second element is a string (so it
becomes the first child), and a plain string. -/
theorem claim_c1_element_rendering_witness :
    render (.list [.str ("div"), .dict [], .str ("Hi")]) =
      some ("<div>Hi</div>" ++ "\n")
  ∧ render (.list [.str ("p"), .str ("a"), .str ("b")]) =
      some ("<p>a" ++ "\n" ++ "b</p>" ++ "\n") := by
  constructor
  · have h := claim_c1_element_rendering.1 ("div") [] [.str ("Hi")] "" ["Hi"]
      (by decide) (by simp [renderAttributes])
      (by simp [renderList, render]; decide)
    rw [h]; decide
  · have h := claim_c1_element_rendering.2.1 ("p") (.str ("a")) [.str ("b")]
      ["a", "b"] (by decide) (by intro ps h; cases h)
      (by simp [renderList, render]; decide)
    rw [h]; decide

/-- Claim C3: `raw(s)` renders as exactly `s` — unescaped, with no
added markup — both as the whole tree and as a child anywhere inside a
larger tree. -/
theorem claim_c3_raw_passthrough :
    (∀ s : String, render (.raw s) = some s)
  ∧ (∀ (tagS : String) (attrs : List (PyVal × PyVal)) (astr : String)
        (pre post : List PyVal) (ps qs : List String) (s : String),
        tagS ∉ unaryTags →
        renderAttributes attrs = some astr →
        renderList pre = some ps →
        renderList post = some qs →
        render (.list (.str tagS :: .dict attrs :: (pre ++ .raw s :: post))) =
          some ("<" ++ tagS ++ astr ++ ">"
            ++ String.intercalate "\n" (ps ++ s :: qs)
            ++ "</" ++ tagS ++ ">" ++ "\n")) := by
  constructor
  · intro s; simp [render]
  · intro tagS attrs astr pre post ps qs s hmem hattrs hpre hpost
    have hraw : renderList (PyVal.raw s :: post) = some (s :: qs) := by
      simp [renderList, render, hpost]
    have hchild : renderList (pre ++ PyVal.raw s :: post) = some (ps ++ s :: qs) :=
      renderList_append pre (PyVal.raw s :: post) ps (s :: qs) hpre hraw
    simp [render, hattrs, hchild, pyStr, isUnaryTag, hmem]

/-- Witness for C3 at concrete inputs: `raw` as the whole tree and as
the middle child of a `div` with an escaped sibling on each side. -/
theorem claim_c3_raw_passthrough_witness :
    render (.raw ("<em>x</em>")) = some ("<em>x</em>")
  ∧ render (.list [.str ("div"), .dict [], .str ("a&b"), .raw ("<em>x</em>"),
      .str ("c")]) =
      some ("<div>a&amp;b" ++ "\n" ++ "<em>x</em>" ++ "\n" ++ "c</div>" ++ "\n") := by
  constructor
  · exact claim_c3_raw_passthrough.1 ("<em>x</em>")
  · have h := claim_c3_raw_passthrough.2 ("div") [] "" [.str ("a&b")]
      [.str ("c")] ["a&amp;b"] ["c"] ("<em>x</em>")
      (by decide) (by simp [renderAttributes])
      (by simp [renderList, render]; decide)
      (by simp [renderList, render]; decide)
    simp only [List.singleton_append, List.cons_append, List.nil_append] at h
    rw [h]; decide

/-- Claim C4: a tag in the self-closing set renders as
`<tag attrs/>` plus a newline with the children dropped from the
output; a tag outside the set always emits an explicit closing tag,
also with no children. -/
theorem claim_c4_self_closing :
    (∀ (tagS : String) (attrs : List (PyVal × PyVal)) (children : List PyVal)
        (astr : String) (cstrs : List String),
        tagS ∈ unaryTags →
        renderAttributes attrs = some astr →
        renderList children = some cstrs →
        render (.list (.str tagS :: .dict attrs :: children)) =
          some ("<" ++ tagS ++ astr ++ "/>" ++ "\n"))
  ∧ (∀ (tagS : String) (attrs : List (PyVal × PyVal)) (astr : String),
        tagS ∉ unaryTags →
        renderAttributes attrs = some astr →
        render (.list [.str tagS, .dict attrs]) =
          some ("<" ++ tagS ++ astr ++ ">" ++ "</" ++ tagS ++ ">" ++ "\n"))
  ∧ (∀ (tagS : String) (attrs : List (PyVal × PyVal)) (children : List PyVal)
        (astr : String) (cstrs : List String),
        tagS ∉ unaryTags →
        renderAttributes attrs = some astr →
        renderList children = some cstrs →
        ∃ pre, render (.list (.str tagS :: .dict attrs :: children)) =
          some (pre ++ "</" ++ tagS ++ ">" ++ "\n")) := by
  refine ⟨?_, ?_, ?_⟩
  · intro tagS attrs children astr cstrs hmem hattrs hchild
    simp [render, hattrs, hchild, pyStr, isUnaryTag, hmem]
  · intro tagS attrs astr hmem hattrs
    have hint : ("\n").intercalate ([] : List String) = "" := rfl
    simp [render, renderList, hattrs, pyStr, isUnaryTag, hmem, hint,
      String.append_empty]
  · intro tagS attrs children astr cstrs hmem hattrs hchild
    refine ⟨"<" ++ tagS ++ astr ++ ">" ++ String.intercalate "\n" cstrs, ?_⟩
    simp [render, hattrs, hchild, pyStr, isUnaryTag, hmem]

/-- Witness for C4 at concrete inputs: `br` (self-closing) with an
attribute and a child that is dropped, and `div` (not self-closing)
with no children. -/
theorem claim_c4_self_closing_witness :
    render (.list [.str ("br"), .dict [(.str ("id"), .str ("x"))], .str ("kid")]) =
      some ("<br id=" ++ String.singleton dquote ++ "x"
        ++ String.singleton dquote ++ "/>" ++ "\n")
  ∧ render (.list [.str ("div"), .dict []]) = some ("<div></div>" ++ "\n") := by
  constructor
  · have h := claim_c4_self_closing.1 ("br") [(.str ("id"), .str ("x"))]
      [.str ("kid")]
      (" id=" ++ String.singleton dquote ++ "x" ++ String.singleton dquote)
      ["kid"] (by decide)
      (by simp [renderAttributes, renderAttrList, renderAttr, pyStr,
        isUnaryAttr, isTrueConst]; decide)
      (by simp [renderList, render]; decide)
    rw [h]; decide
  · have h := claim_c4_self_closing.2.1 ("div") [] "" (by decide)
      (by simp [renderAttributes])
    rw [h]; decide

end Hiccup

namespace Config

/-- Claim C5: the settings object reloads its backing module exactly
when none is loaded yet or when `WBWEB_SETTINGS_MODULE` differs from
the value cached at the last load.  With a loaded module and an
unchanged variable, an attribute access leaves the state — hence the
cached module — untouched; with a changed variable naming an importable
module, the next access installs that module and caches the new path,
and resolves attributes from it (when it is distinct from the defaults
module); with a change to an unset variable, the defaults module is
installed. -/
theorem getattrSettings_fst (env : SettingsEnv) (st : SettingsState)
    (name : String) :
    (getattrSettings env st name).1 = (loadSettings env st).1 := by
  unfold getattrSettings
  split
  · next st1 e heq => simp [heq]
  · next st1 heq =>
      split
      · simp [heq]
      · split <;> simp [heq]

theorem claim_c5_settings_reload (env : SettingsEnv) (st : SettingsState)
    (name : String) :
    (st.settingsModule.isSome = true → st.cachedPath = env.envVar →
        loadSettings env st = (st, none)
        ∧ (getattrSettings env st name).1 = st)
  ∧ (∀ (p : String) (m : PyModule),
        (st.settingsModule = none ∨ st.cachedPath ≠ env.envVar) →
        env.envVar = some p → importModule env p = some m →
        loadSettings env st = (⟨some m, some env.defaultsMod, some p⟩, none)
        ∧ (getattrSettings env st name).1 = ⟨some m, some env.defaultsMod, some p⟩)
  ∧ ((st.settingsModule = none ∨ st.cachedPath ≠ env.envVar) →
        env.envVar = none →
        loadSettings env st =
          (⟨some env.defaultsMod, some env.defaultsMod, none⟩, none))
  ∧ (∀ (p : String) (m : PyModule) (v : SVal),
        (st.settingsModule = none ∨ st.cachedPath ≠ env.envVar) →
        env.envVar = some p → importModule env p = some m →
        m.modName ≠ env.defaultsMod.modName →
        moduleGetattr m name = some v →
        (getattrSettings env st name).2 = .ok v) := by
  refine ⟨?_, ?_, ?_, ?_⟩
  · intro hsome hcache
    obtain ⟨m0, hm0⟩ := Option.isSome_iff_exists.mp hsome
    have hno : shouldReloadSettings env st = false := by
      simp [shouldReloadSettings, hm0, hcache]
    have hload : loadSettings env st = (st, none) := by
      simp [loadSettings, hno]
    exact ⟨hload, by simp [getattrSettings_fst, hload]⟩
  · intro p m hchanged henv himp
    have hyes : shouldReloadSettings env st = true := by
      rcases hchanged with h | h
      · simp [shouldReloadSettings, h]
      · simp [shouldReloadSettings, bne_iff_ne, h]
    have hload : loadSettings env st =
        (⟨some m, some env.defaultsMod, some p⟩, none) := by
      simp [loadSettings, hyes, henv, himp]
    exact ⟨hload, by simp [getattrSettings_fst, hload]⟩
  · intro hchanged henv
    have hyes : shouldReloadSettings env st = true := by
      rcases hchanged with h | h
      · simp [shouldReloadSettings, h]
      · simp [shouldReloadSettings, bne_iff_ne, h]
    simp [loadSettings, hyes, henv]
  · intro p m v hchanged henv himp hne hval
    have hyes : shouldReloadSettings env st = true := by
      rcases hchanged with h | h
      · simp [shouldReloadSettings, h]
      · simp [shouldReloadSettings, bne_iff_ne, h]
    have hbeq : (m.modName == env.defaultsMod.modName) = false := by
      simpa using hne
    simp [getattrSettings, loadSettings, hyes, henv, himp, moduleIs, hbeq, hval]

/-- Witness for C5 at concrete inputs: from the fresh state with the
environment variable naming an importable module, an access installs
that module, resolves the attribute from it, and a further access with
an unchanged environment leaves the state untouched. -/
theorem claim_c5_settings_reload_witness :
    loadSettings
        ⟨some ("proj.settings"),
         [("proj.settings", ⟨"proj.settings", [("DEBUG", .vBool true)]⟩)],
         ⟨"wbweb.core.config.defaults", [("DEBUG", .vBool false)]⟩⟩
        initSettingsState =
      (⟨some ⟨"proj.settings", [("DEBUG", .vBool true)]⟩,
        some ⟨"wbweb.core.config.defaults", [("DEBUG", .vBool false)]⟩,
        some ("proj.settings")⟩, none)
  ∧ (getattrSettings
        ⟨some ("proj.settings"),
         [("proj.settings", ⟨"proj.settings", [("DEBUG", .vBool true)]⟩)],
         ⟨"wbweb.core.config.defaults", [("DEBUG", .vBool false)]⟩⟩
        initSettingsState ("DEBUG")).2 = .ok (.vBool true)
  ∧ (getattrSettings
        ⟨some ("proj.settings"),
         [("proj.settings", ⟨"proj.settings", [("DEBUG", .vBool true)]⟩)],
         ⟨"wbweb.core.config.defaults", [("DEBUG", .vBool false)]⟩⟩
        ⟨some ⟨"proj.settings", [("DEBUG", .vBool true)]⟩,
         some ⟨"wbweb.core.config.defaults", [("DEBUG", .vBool false)]⟩,
         some ("proj.settings")⟩ ("DEBUG")).1 =
      ⟨some ⟨"proj.settings", [("DEBUG", .vBool true)]⟩,
       some ⟨"wbweb.core.config.defaults", [("DEBUG", .vBool false)]⟩,
       some ("proj.settings")⟩ := by
  refine ⟨?_, ?_, ?_⟩
  · exact ((claim_c5_settings_reload _ initSettingsState ("DEBUG")).2.1
      ("proj.settings") ⟨"proj.settings", [("DEBUG", .vBool true)]⟩
      (Or.inl rfl) rfl (by decide)).1
  · exact (claim_c5_settings_reload _ initSettingsState ("DEBUG")).2.2.2
      ("proj.settings") ⟨"proj.settings", [("DEBUG", .vBool true)]⟩
      (.vBool true) (Or.inl rfl) rfl (by decide) (by decide) (by decide)
  · exact ((claim_c5_settings_reload _ _ ("DEBUG")).1 (by decide) rfl).2

/-- Claim C9: with a user settings module loaded that is a distinct
object from the defaults module, attribute lookup returns the user
module's value when it defines the attribute, otherwise the defaults
module's value, and raises `AttributeError` exactly when neither
defines it. -/
theorem claim_c9_settings_fallback (env : SettingsEnv) (st : SettingsState)
    (u d : PyModule) (name : String)
    (hu : st.settingsModule = some u) (hd : st.defaultsModule = some d)
    (hne : u.modName ≠ d.modName) (hcache : st.cachedPath = env.envVar) :
    (getattrSettings env st name).2 =
      match moduleGetattr u name with
      | some v => .ok v
      | none =>
          match moduleGetattr d name with
          | some v => .ok v
          | none => .error (.attributeError name) := by
  have hno : shouldReloadSettings env st = false := by
    simp [shouldReloadSettings, hu, hcache]
  have hbeq : (u.modName == d.modName) = false := by simpa using hne
  simp only [getattrSettings, loadSettings, hno, Bool.not_false, if_true]
  simp [moduleIs, hu, hd, hbeq]
  cases moduleGetattr u name <;> cases hdd : moduleGetattr d name <;> simp

/-- Witness for C9 at concrete inputs: a user module that overrides one
attribute; the override is returned, another attribute falls back to
the defaults, and an attribute defined nowhere raises. -/
theorem claim_c9_settings_fallback_witness :
    (getattrSettings ⟨none, [], ⟨"wbweb.core.config.defaults", []⟩⟩
        ⟨some ⟨"proj.settings", [("APP_NAME", .vStr ("X"))]⟩,
         some ⟨"wbweb.core.config.defaults",
           [("APP_NAME", .vStr ("wbweb Application")), ("DEBUG", .vBool false)]⟩,
         none⟩ ("APP_NAME")).2 = .ok (.vStr ("X"))
  ∧ (getattrSettings ⟨none, [], ⟨"wbweb.core.config.defaults", []⟩⟩
        ⟨some ⟨"proj.settings", [("APP_NAME", .vStr ("X"))]⟩,
         some ⟨"wbweb.core.config.defaults",
           [("APP_NAME", .vStr ("wbweb Application")), ("DEBUG", .vBool false)]⟩,
         none⟩ ("DEBUG")).2 = .ok (.vBool false)
  ∧ (getattrSettings ⟨none, [], ⟨"wbweb.core.config.defaults", []⟩⟩
        ⟨some ⟨"proj.settings", [("APP_NAME", .vStr ("X"))]⟩,
         some ⟨"wbweb.core.config.defaults",
           [("APP_NAME", .vStr ("wbweb Application")), ("DEBUG", .vBool false)]⟩,
         none⟩ ("MISSING")).2 = .error (.attributeError ("MISSING")) := by
  refine ⟨?_, ?_, ?_⟩
  · rw [claim_c9_settings_fallback _ _ ⟨"proj.settings", [("APP_NAME", .vStr ("X"))]⟩
      ⟨"wbweb.core.config.defaults",
        [("APP_NAME", .vStr ("wbweb Application")), ("DEBUG", .vBool false)]⟩
      ("APP_NAME") rfl rfl (by decide) rfl]
    rfl
  · rw [claim_c9_settings_fallback _ _ ⟨"proj.settings", [("APP_NAME", .vStr ("X"))]⟩
      ⟨"wbweb.core.config.defaults",
        [("APP_NAME", .vStr ("wbweb Application")), ("DEBUG", .vBool false)]⟩
      ("DEBUG") rfl rfl (by decide) rfl]
    rfl
  · rw [claim_c9_settings_fallback _ _ ⟨"proj.settings", [("APP_NAME", .vStr ("X"))]⟩
      ⟨"wbweb.core.config.defaults",
        [("APP_NAME", .vStr ("wbweb Application")), ("DEBUG", .vBool false)]⟩
      ("MISSING") rfl rfl (by decide) rfl]
    rfl

end Config

namespace Proxy

/-- Claim C6: the proxy creates the backend on first use and recreates
it exactly when the configured class path (from settings, or the
proxy's default) differs from the path cached at the last creation;
while the path is unchanged the very same backend instance is returned
and nothing in the proxy changes. -/
theorem claim_c6_proxy_cache (env : ProxyEnv) (ps : ProxyState) (nextId : Nat) :
    (∀ b, ps.backend = some b →
        ps.cachedBackendPath = currentBackendPath env ps →
        getOrCreateBackend env ps nextId = .ok (b, ps, nextId))
  ∧ (∀ p : String,
        (ps.backend = none ∨ ps.cachedBackendPath ≠ currentBackendPath env ps) →
        currentBackendPath env ps = some p →
        env.importable.contains p = true →
        getOrCreateBackend env ps nextId =
          .ok (⟨p, nextId⟩,
               { ps with backend := some ⟨p, nextId⟩,
                         cachedBackendPath := some p },
               nextId + 1)) := by
  constructor
  · intro b hb hcache
    have hno : shouldRecreateBackend env ps = false := by
      simp [shouldRecreateBackend, hb, hcache]
    simp [getOrCreateBackend, hno, hb]
  · intro p hchanged hpath himp
    have hyes : shouldRecreateBackend env ps = true := by
      rcases hchanged with h | h
      · simp [shouldRecreateBackend, h]
      · simp [shouldRecreateBackend, bne_iff_ne, h]
    have hmem : p ∈ env.importable := by simpa using himp
    simp [getOrCreateBackend, hyes, hpath, importFromString, hmem]

/-- Witness for C6 at concrete inputs: a fresh proxy for
`DATABASE_ENGINE_FACTORY` creates instance 0 of the configured class
and caches the path; with the path unchanged, the next access returns
instance 0 with nothing recreated. -/
theorem claim_c6_proxy_cache_witness :
    getOrCreateBackend ⟨[("DATABASE_ENGINE_FACTORY", "pkg.Factory")], ["pkg.Factory"]⟩
        (initProxyState ("DATABASE_ENGINE_FACTORY") none) 0 =
      .ok (⟨"pkg.Factory", 0⟩,
           ⟨none, "DATABASE_ENGINE_FACTORY", some ⟨"pkg.Factory", 0⟩,
            some ("pkg.Factory")⟩, 1)
  ∧ getOrCreateBackend ⟨[("DATABASE_ENGINE_FACTORY", "pkg.Factory")], ["pkg.Factory"]⟩
        ⟨none, "DATABASE_ENGINE_FACTORY", some ⟨"pkg.Factory", 0⟩,
         some ("pkg.Factory")⟩ 1 =
      .ok (⟨"pkg.Factory", 0⟩,
           ⟨none, "DATABASE_ENGINE_FACTORY", some ⟨"pkg.Factory", 0⟩,
            some ("pkg.Factory")⟩, 1) := by
  constructor
  · exact (claim_c6_proxy_cache _ _ 0).2 ("pkg.Factory") (Or.inl rfl)
      (by decide) (by decide)
  · exact (claim_c6_proxy_cache _ _ 1).1 ⟨"pkg.Factory", 0⟩ rfl (by decide)

end Proxy

namespace Query

theorem qheapGet_append_lt (h : QHeap) (x : QuerySetObj) (r : Nat)
    (hr : r < h.length) :
    qheapGet (h ++ [x]) r = qheapGet h r := by
  simp [qheapGet, List.get?_eq_getElem?, List.getElem?_append, hr]

theorem qheapGet_append_self (h : QHeap) (x : QuerySetObj) :
    qheapGet (h ++ [x]) h.length = some x := by
  simp [qheapGet, List.get?_eq_getElem?, List.getElem?_concat_length]

theorem qheapGet_lt_length (h : QHeap) (r : Nat) (q : QuerySetObj)
    (hq : qheapGet h r = some q) : r < h.length := by
  by_contra hbad
  have hnone : h.get? r = none := List.get?_eq_none.mpr (le_of_not_lt hbad)
  rw [qheapGet, hnone] at hq
  cases hq

theorem setStmt_get_ne (h : QHeap) (t r : Nat) (s : SqlStmt) (hne : t ≠ r) :
    qheapGet (setStmt h t s) r = qheapGet h r := by
  unfold setStmt
  split
  · simp [qheapGet, List.get?_eq_getElem?, List.getElem?_set_ne hne]
  · rfl

theorem setStmt_get_self (h : QHeap) (t : Nat) (s : SqlStmt) (q : QuerySetObj)
    (hq : qheapGet h t = some q) :
    qheapGet (setStmt h t s) t = some { q with stmt := s } := by
  have ht : t < h.length := qheapGet_lt_length h t q hq
  unfold setStmt
  rw [show h.get? t = some q from hq]
  simp [qheapGet, List.get?_eq_getElem?, List.getElem?_set_self ht]

theorem applyWheres_get_ne (h : QHeap) (t r : Nat) (cs : List Cond)
    (hne : t ≠ r) :
    qheapGet (applyWheres h t cs) r = qheapGet h r := by
  induction cs generalizing h with
  | nil => rfl
  | cons c cs ih =>
      show qheapGet
        (applyWheres
          (match qheapGet h t with
           | some q => setStmt h t (.whereC q.stmt c)
           | none => h) t cs) r = qheapGet h r
      rcases hq : qheapGet h t with _ | q
      · simp only [hq]
        exact ih h
      · simp only [hq]
        rw [ih (setStmt h t (.whereC q.stmt c))]
        exact setStmt_get_ne h t r _ hne

theorem applyWheres_get_self (h : QHeap) (t : Nat) (cs : List Cond)
    (q : QuerySetObj) (hq : qheapGet h t = some q) :
    qheapGet (applyWheres h t cs) t =
      some { q with stmt := stackWheres q.stmt cs } := by
  induction cs generalizing h q with
  | nil => simpa [applyWheres, stackWheres] using hq
  | cons c cs ih =>
      show qheapGet
        (applyWheres
          (match qheapGet h t with
           | some q0 => setStmt h t (.whereC q0.stmt c)
           | none => h) t cs) t = _
      rw [hq]
      have hstep : qheapGet (setStmt h t (.whereC q.stmt c)) t =
          some { q with stmt := .whereC q.stmt c } :=
        setStmt_get_self h t _ q hq
      have := ih (setStmt h t (.whereC q.stmt c)) { q with stmt := .whereC q.stmt c } hstep
      simpa [stackWheres] using this

theorem cloneQS_eq (h : QHeap) (r : Nat) (self : QuerySetObj)
    (hself : qheapGet h r = some self) :
    cloneQS h r =
      some (setStmt (h ++ [⟨self.modelClass, .selectModel self.modelClass⟩])
              h.length self.stmt,
            h.length) := by
  simp [cloneQS, hself, newQuerySet]

theorem cloneQS_get_base (h : QHeap) (r : Nat) (self : QuerySetObj)
    (hself : qheapGet h r = some self) :
    qheapGet (setStmt (h ++ [⟨self.modelClass, .selectModel self.modelClass⟩])
        h.length self.stmt) r = some self := by
  have hr : r < h.length := qheapGet_lt_length h r self hself
  rw [setStmt_get_ne _ _ _ _ (Nat.ne_of_gt hr)]
  rw [qheapGet_append_lt h _ r hr]
  exact hself

theorem cloneQS_get_new (h : QHeap) (r : Nat) (self : QuerySetObj)
    (_hself : qheapGet h r = some self) :
    qheapGet (setStmt (h ++ [⟨self.modelClass, .selectModel self.modelClass⟩])
        h.length self.stmt) h.length =
      some ⟨self.modelClass, self.stmt⟩ := by
  have := setStmt_get_self (h ++ [⟨self.modelClass, .selectModel self.modelClass⟩])
    h.length self.stmt ⟨self.modelClass, .selectModel self.modelClass⟩
    (qheapGet_append_self h _)
  simpa using this

/-- Claim C10: `filter`, `options` and `order_by` each operate on a
clone: on success they return a fresh reference (distinct from the
receiver), the receiver's object — hence the statement it would
execute — is unchanged on the resulting heap, and the clone's
statement is the receiver's statement with the new clauses layered on
top. -/
theorem claim_c10_queryset_immutability (h : QHeap) (r : Nat)
    (self : QuerySetObj) (hself : qheapGet h r = some self) :
    (∀ (exprs : List String) (kwargs : List (String × String))
        (res : QHeap × Nat), filterQS h r exprs kwargs = some res →
        qheapGet res.1 r = some self ∧ res.2 ≠ r)
  ∧ (∀ (opts : List String) (res : QHeap × Nat),
        optionsQS h r opts = some res →
        qheapGet res.1 r = some self ∧ res.2 ≠ r
        ∧ qheapGet res.1 res.2 =
            some ⟨self.modelClass, .withOptions self.stmt opts⟩)
  ∧ (∀ (keys : List String) (res : QHeap × Nat),
        orderByQS h r keys = some res →
        qheapGet res.1 r = some self ∧ res.2 ≠ r
        ∧ qheapGet res.1 res.2 =
            some ⟨self.modelClass, .withOrderBy self.stmt keys⟩)
  ∧ (∀ (exprs : List String) (res : QHeap × Nat),
        filterQS h r exprs [] = some res →
        qheapGet res.1 res.2 =
          some ⟨self.modelClass, stackWheres self.stmt (exprs.map Cond.expr)⟩) := by
  have hr : r < h.length := qheapGet_lt_length h r self hself
  have hne : h.length ≠ r := Nat.ne_of_gt hr
  have hclone := cloneQS_eq h r self hself
  have hbase := cloneQS_get_base h r self hself
  have hnew := cloneQS_get_new h r self hself
  refine ⟨?_, ?_, ?_, ?_⟩
  · intro exprs kwargs res hres
    rcases kwargs with _ | ⟨kv, kvs⟩
    · have heq : filterQS h r exprs [] =
          some (applyWheres
                  (setStmt (h ++ [⟨self.modelClass, .selectModel self.modelClass⟩])
                    h.length self.stmt)
                  h.length (exprs.map Cond.expr), h.length) := by
        simp [filterQS, hself, hclone]
      rw [heq] at hres
      have hres2 : res = (applyWheres
          (setStmt (h ++ [⟨self.modelClass, .selectModel self.modelClass⟩])
            h.length self.stmt)
          h.length (exprs.map Cond.expr), h.length) := by
        simpa using hres.symm
      subst hres2
      constructor
      · rw [applyWheres_get_ne _ _ _ _ hne]
        exact hbase
      · exact hne
    · rcases hm : self.modelClass with _ | m
      · have heq : filterQS h r exprs (kv :: kvs) = none := by
          simp [filterQS, hself, hclone, hm]
        rw [heq] at hres
        cases hres
      · have heq : filterQS h r exprs (kv :: kvs) =
            some (applyWheres
                    (applyWheres
                      (setStmt (h ++ [⟨self.modelClass, .selectModel self.modelClass⟩])
                        h.length self.stmt)
                      h.length (exprs.map Cond.expr))
                    h.length ((kv :: kvs).map (fun p => Cond.fieldEq m p.1 p.2)),
                  h.length) := by
          simp [filterQS, hself, hclone, hm]
        rw [heq] at hres
        have hres2 : res = (applyWheres
            (applyWheres
              (setStmt (h ++ [⟨self.modelClass, .selectModel self.modelClass⟩])
                h.length self.stmt)
              h.length (exprs.map Cond.expr))
            h.length ((kv :: kvs).map (fun p => Cond.fieldEq m p.1 p.2)),
          h.length) := by
          simpa using hres.symm
        subst hres2
        constructor
        · rw [applyWheres_get_ne _ _ _ _ hne, applyWheres_get_ne _ _ _ _ hne]
          exact hbase
        · exact hne
  · intro opts res hres
    have heq : optionsQS h r opts =
        some (setStmt
                (setStmt (h ++ [⟨self.modelClass, .selectModel self.modelClass⟩])
                  h.length self.stmt)
                h.length (.withOptions self.stmt opts), h.length) := by
      simp [optionsQS, hself, hclone, hnew]
    rw [heq] at hres
    have hres2 : res = (setStmt
        (setStmt (h ++ [⟨self.modelClass, .selectModel self.modelClass⟩])
          h.length self.stmt)
        h.length (.withOptions self.stmt opts), h.length) := by
      simpa using hres.symm
    subst hres2
    refine ⟨?_, hne, ?_⟩
    · rw [setStmt_get_ne _ _ _ _ hne]
      exact hbase
    · have := setStmt_get_self _ h.length (.withOptions self.stmt opts)
        ⟨self.modelClass, self.stmt⟩ hnew
      simpa using this
  · intro keys res hres
    have heq : orderByQS h r keys =
        some (setStmt
                (setStmt (h ++ [⟨self.modelClass, .selectModel self.modelClass⟩])
                  h.length self.stmt)
                h.length (.withOrderBy self.stmt keys), h.length) := by
      simp [orderByQS, hself, hclone, hnew]
    rw [heq] at hres
    have hres2 : res = (setStmt
        (setStmt (h ++ [⟨self.modelClass, .selectModel self.modelClass⟩])
          h.length self.stmt)
        h.length (.withOrderBy self.stmt keys), h.length) := by
      simpa using hres.symm
    subst hres2
    refine ⟨?_, hne, ?_⟩
    · rw [setStmt_get_ne _ _ _ _ hne]
      exact hbase
    · have := setStmt_get_self _ h.length (.withOrderBy self.stmt keys)
        ⟨self.modelClass, self.stmt⟩ hnew
      simpa using this
  · intro exprs res hres
    have heq : filterQS h r exprs [] =
        some (applyWheres
                (setStmt (h ++ [⟨self.modelClass, .selectModel self.modelClass⟩])
                  h.length self.stmt)
                h.length (exprs.map Cond.expr), h.length) := by
      simp [filterQS, hself, hclone]
    rw [heq] at hres
    have hres2 : res = (applyWheres
        (setStmt (h ++ [⟨self.modelClass, .selectModel self.modelClass⟩])
          h.length self.stmt)
        h.length (exprs.map Cond.expr), h.length) := by
      simpa using hres.symm
    subst hres2
    have := applyWheres_get_self _ h.length (exprs.map Cond.expr)
      ⟨self.modelClass, self.stmt⟩ hnew
    simpa using this

/-- Witness for C10 at a concrete heap: a single base query set over
model `User`; `filter` and `options` leave object 0 unchanged and
allocate object 1 with the layered statement. -/
theorem claim_c10_queryset_immutability_witness :
    qheapGet ([⟨some ("User"), .selectModel (some ("User"))⟩,
               ⟨some ("User"), .whereC (.selectModel (some ("User")))
                 (.expr ("User.id > 1"))⟩] : QHeap) 0 =
      some ⟨some ("User"), .selectModel (some ("User"))⟩
  ∧ (1 : Nat) ≠ 0
  ∧ qheapGet ([⟨some ("User"), .selectModel (some ("User"))⟩,
               ⟨some ("User"), .withOptions (.selectModel (some ("User")))
                 ["joinedload"]⟩] : QHeap) 1 =
      some ⟨some ("User"), .withOptions (.selectModel (some ("User")))
        ["joinedload"]⟩ := by
  have hf := (claim_c10_queryset_immutability
      [⟨some ("User"), .selectModel (some ("User"))⟩] 0
      ⟨some ("User"), .selectModel (some ("User"))⟩ rfl).1
      ["User.id > 1"] []
      ([⟨some ("User"), .selectModel (some ("User"))⟩,
        ⟨some ("User"), .whereC (.selectModel (some ("User")))
          (.expr ("User.id > 1"))⟩], 1)
      (by decide)
  have ho := (claim_c10_queryset_immutability
      [⟨some ("User"), .selectModel (some ("User"))⟩] 0
      ⟨some ("User"), .selectModel (some ("User"))⟩ rfl).2.1
      ["joinedload"]
      ([⟨some ("User"), .selectModel (some ("User"))⟩,
        ⟨some ("User"), .withOptions (.selectModel (some ("User")))
          ["joinedload"]⟩], 1)
      (by decide)
  exact ⟨hf.1, hf.2, ho.2.2⟩

end Query

namespace HiccupHeap

theorem renderSeqH_heap_eq (f : Heap → HRef → Option (String × Heap))
    (hf : ∀ h r s h2, f h r = some (s, h2) → h2 = h) :
    ∀ (rs : List HRef) (h : Heap) (ss : List String) (h2 : Heap),
      renderSeqH f h rs = some (ss, h2) → h2 = h := by
  intro rs
  induction rs with
  | nil =>
      intro h ss h2 hres
      simp only [renderSeqH] at hres
      cases hres
      rfl
  | cons r rest ih =>
      intro h ss h2 hres
      simp only [renderSeqH] at hres
      cases hfh : f h r with
      | none => rw [hfh] at hres; simp at hres
      | some sh =>
          rw [hfh] at hres
          simp at hres
          cases hrest : renderSeqH f sh.2 rest with
          | none => rw [hrest] at hres; simp at hres
          | some pr =>
              rw [hrest] at hres
              simp at hres
              rw [← hres.2]
              exact (ih sh.2 pr.1 pr.2 hrest).trans (hf h r sh.1 sh.2 hfh)

theorem renderElemH_heap_eq (f : Heap → HRef → Option (String × Heap))
    (strf : Heap → HRef → Option String)
    (hf : ∀ h r s h2, f h r = some (s, h2) → h2 = h)
    (h : Heap) (tagR : HRef) (attrPairs : List (HRef × HRef))
    (children : List HRef) (s : String) (h2 : Heap)
    (hres : renderElemH f strf h tagR attrPairs children = some (s, h2)) :
    h2 = h := by
  simp only [renderElemH] at hres
  cases hastr : renderAttributesH h (strf h) attrPairs with
  | none => rw [hastr] at hres; simp at hres
  | some astr =>
      rw [hastr] at hres
      simp at hres
      cases hcres : renderSeqH f h children with
      | none => rw [hcres] at hres; simp at hres
      | some cres =>
          rw [hcres] at hres
          simp at hres
          have hheap : cres.2 = h :=
            renderSeqH_heap_eq f hf children h cres.1 cres.2 hcres
          cases htag : strf cres.2 tagR with
          | none => rw [htag] at hres; simp at hres
          | some tagStr =>
              rw [htag] at hres
              simp at hres
              cases hub : isUnaryTagH cres.2 tagR with
              | none => rw [hub] at hres; simp at hres
              | some ub =>
                  rw [hub] at hres
                  cases ub <;> simp at hres <;>
                    (rw [← hres.2]; exact hheap)

theorem renderH_heap_eq :
    ∀ (fuel : Nat) (h : Heap) (r : HRef) (s : String) (h2 : Heap),
      renderH fuel h r = some (s, h2) → h2 = h := by
  intro fuel
  induction fuel with
  | zero =>
      intro h r s h2 hres
      simp [renderH] at hres
  | succ fuel ih =>
      intro h r s h2 hres
      simp only [renderH] at hres
      cases hv : heapGet h r with
      | none => rw [hv] at hres; simp at hres
      | some v =>
          rw [hv] at hres
          cases v with
          | raw c => simp at hres; exact hres.2.symm
          | str s0 => simp at hres; exact hres.2.symm
          | bool b =>
              cases hps : pyStrH fuel h r with
              | none => rw [hps] at hres; simp at hres
              | some s1 => rw [hps] at hres; simp at hres; exact hres.2.symm
          | int n =>
              cases hps : pyStrH fuel h r with
              | none => rw [hps] at hres; simp at hres
              | some s1 => rw [hps] at hres; simp at hres; exact hres.2.symm
          | noneV =>
              cases hps : pyStrH fuel h r with
              | none => rw [hps] at hres; simp at hres
              | some s1 => rw [hps] at hres; simp at hres; exact hres.2.symm
          | dict ps =>
              cases hps : pyStrH fuel h r with
              | none => rw [hps] at hres; simp at hres
              | some s1 => rw [hps] at hres; simp at hres; exact hres.2.symm
          | list elems =>
              cases elems with
              | nil =>
                  cases hps : pyStrH fuel h r with
                  | none => rw [hps] at hres; simp at hres
                  | some s1 => rw [hps] at hres; simp at hres; exact hres.2.symm
              | cons tagR tl =>
                  cases tl with
                  | nil =>
                      cases hps : pyStrH fuel h r with
                      | none => rw [hps] at hres; simp at hres
                      | some s1 =>
                          rw [hps] at hres; simp at hres; exact hres.2.symm
                  | cons sndR rest =>
                      simp at hres
                      cases hsnd : heapGet h sndR with
                      | none => rw [hsnd] at hres; simp at hres
                      | some sndV =>
                          rw [hsnd] at hres
                          simp at hres
                          cases sndV with
                          | dict ps =>
                              exact renderElemH_heap_eq (renderH fuel)
                                (pyStrH fuel) ih h tagR ps rest s h2 hres
                          | str s0 =>
                              exact renderElemH_heap_eq (renderH fuel)
                                (pyStrH fuel) ih h tagR [] (sndR :: rest) s h2 hres
                          | raw c =>
                              exact renderElemH_heap_eq (renderH fuel)
                                (pyStrH fuel) ih h tagR [] (sndR :: rest) s h2 hres
                          | list es =>
                              exact renderElemH_heap_eq (renderH fuel)
                                (pyStrH fuel) ih h tagR [] (sndR :: rest) s h2 hres
                          | bool b =>
                              exact renderElemH_heap_eq (renderH fuel)
                                (pyStrH fuel) ih h tagR [] (sndR :: rest) s h2 hres
                          | int n =>
                              exact renderElemH_heap_eq (renderH fuel)
                                (pyStrH fuel) ih h tagR [] (sndR :: rest) s h2 hres
                          | noneV =>
                              exact renderElemH_heap_eq (renderH fuel)
                                (pyStrH fuel) ih h tagR [] (sndR :: rest) s h2 hres

/-- Claim C8: rendering never mutates the input tree — on success the
heap after the call is the heap before it, every object (lists,
attribute dicts, nested children) unchanged — and re-rendering the same
reference on the resulting heap returns the same string again. -/
theorem claim_c8_render_pure (fuel : Nat) (h : Heap) (r : HRef) (s : String)
    (h2 : Heap) (hres : renderH fuel h r = some (s, h2)) :
    h2 = h ∧ renderH fuel h2 r = some (s, h2) := by
  have heq := renderH_heap_eq fuel h r s h2 hres
  subst heq
  exact ⟨rfl, hres⟩

/-- Witness for C8 at a concrete heap: a `p` element with an attribute
dict and a text child renders with the four-object heap intact, twice. -/
theorem claim_c8_render_pure_witness :
    renderH 10 ([HVal.list [1, 2, 3], HVal.str ("p"), HVal.dict [],
      HVal.str ("Hi")]) 0 =
      some ("<p>Hi</p>" ++ "\n",
        [HVal.list [1, 2, 3], HVal.str ("p"), HVal.dict [], HVal.str ("Hi")]) :=
  (claim_c8_render_pure 10
    [HVal.list [1, 2, 3], HVal.str ("p"), HVal.dict [], HVal.str ("Hi")] 0
    ("<p>Hi</p>" ++ "\n")
    [HVal.list [1, 2, 3], HVal.str ("p"), HVal.dict [], HVal.str ("Hi")]
    (by decide)).2

end HiccupHeap

/-- Counterexample to C7 as stated: a lookup that matches no row raises
`DoesNotExist`, an exception type the library itself declares
(`managers.py` lines 15–16) — not an exception of the wrapped
framework propagated unchanged. -/
theorem claim_c7_counterexample :
    Managers.managerGet ([] : List Nat) = .error .doesNotExist
  ∧ PyErr.isLibraryDefined .doesNotExist = true := by
  exact ⟨rfl, rfl⟩

/-- Claim C7 (amended): the library declares its own exception types
`ORMException` and `DoesNotExist`, and `Manager.get` raises the
library-defined `DoesNotExist` on an empty result (returning the row on
a unique match); a misconfigured settings module, by contrast, raises
the interpreter's `ImportError` (re-raised with an augmented message
naming the module path, chaining the original error). -/
theorem claim_c7_library_exception_taxonomy :
    Managers.managerGet ([] : List Bool) = .error .doesNotExist
  ∧ PyErr.isLibraryDefined .doesNotExist = true
  ∧ (∀ x : Nat, Managers.managerGet [x] = .ok x)
  ∧ (∀ (env : Config.SettingsEnv) (st : Config.SettingsState) (p : String),
        Config.shouldReloadSettings env st = true →
        env.envVar = some p →
        Config.importModule env p = none →
        (Config.loadSettings env st).2 = some (.importError p)
          ∧ PyErr.isLibraryDefined (.importError p) = false) := by
  refine ⟨rfl, rfl, fun x => rfl, ?_⟩
  intro env st p hreload henv himp
  constructor
  · simp [Config.loadSettings, hreload, henv, himp]
  · rfl

/-- Witness for the amended C7 at concrete inputs: a unique row is
returned, and an unimportable settings module produces the interpreter
`ImportError`. -/
theorem claim_c7_library_exception_taxonomy_witness :
    Managers.managerGet [5] = .ok 5
  ∧ (Config.loadSettings
        ⟨some ("missing.settings"), [], ⟨"wbweb.core.config.defaults", []⟩⟩
        Config.initSettingsState).2 = some (.importError ("missing.settings")) := by
  refine ⟨claim_c7_library_exception_taxonomy.2.2.1 5, ?_⟩
  exact (claim_c7_library_exception_taxonomy.2.2.2
    ⟨some ("missing.settings"), [], ⟨"wbweb.core.config.defaults", []⟩⟩
    Config.initSettingsState ("missing.settings") (by decide) rfl (by decide)).1

end Wbweb
